import Mathlib

/-!
Shallow embedding of the fruits-Scanner web service (`app.py`, `auth.py`,
`database.py`) and proofs about its specified behaviour.

Conventions of the embedding:
* The SQLite `users` table is a list of `UserRec` values; `db.add`/`commit`
  appends, and the auto-increment primary key is modelled by `nextId`.
* Python builtins used by the code (`str.strip`, `str.lower`, `len`, `in`,
  `str`, `int`) are modelled by `pyStrip`, `pyLower`, `String.length`,
  `pyInStr`, `pyStr`, `pyInt` working on the character lists of strings
  (restricted to the ASCII behaviour the service exercises).
* External libraries (passlib's bcrypt context, python-jose JWT) are
  modelled abstractly: hashing/verification are parameters (`CryptoCtx`),
  and a JWT is a record carrying its claims and its signing key, which
  `decode_token` checks against `SECRET_KEY` together with the expiry.
* HTTP handlers are pure functions threading the database explicitly and
  returning `Except HErr` results, where `HErr` models a raised
  `HTTPException` (status code plus detail).
-/

namespace FruitScanner

/-! ### Models of Python string builtins -/

/-- ASCII lower-casing of one character, the model of what `str.lower`
does on the ASCII range. -/
def lowerChar (c : Char) : Char :=
  if 65 ≤ c.toNat && c.toNat ≤ 90 then Char.ofNat (c.toNat + 32) else c

/-- Whitespace test used by the model of `str.strip`: space, tab, LF, CR,
VT, FF. -/
def isWs (c : Char) : Bool :=
  c.toNat == 32 || c.toNat == 9 || c.toNat == 10 ||
  c.toNat == 13 || c.toNat == 11 || c.toNat == 12

/-- Drop leading whitespace (first half of `str.strip`). -/
def stripL (l : List Char) : List Char := l.dropWhile isWs

/-- Drop trailing whitespace (second half of `str.strip`). -/
def stripR (l : List Char) : List Char := (l.reverse.dropWhile isWs).reverse

/-- Model of Python `str.strip()`. -/
def pyStrip (s : String) : String := ⟨stripR (stripL s.data)⟩

/-- Model of Python `str.lower()` (ASCII range). -/
def pyLower (s : String) : String := ⟨s.data.map lowerChar⟩

/-- Model of Python `c in s` for a single-character needle, as in
`"@" not in email`. -/
def pyInStr (c : Char) (s : String) : Bool := s.data.contains c

/-- Model of Python `s.startswith(pre)`. -/
def pyStartsWith (s pre : String) : Bool := pre.data.isPrefixOf s.data

/-- The email normalization `email.strip().lower()` used by `signup`,
`login` and `get_user_by_email`. -/
def normalizeEmail (s : String) : String := pyLower (pyStrip s)

/-! ### Character-level lemmas -/

theorem toNat_ofNat_valid (n : Nat) (h : n < 55296) : (Char.ofNat n).toNat = n := by
  have hv : n.isValidChar := Or.inl h
  simp [Char.ofNat, hv, Char.ofNatAux, Char.toNat, UInt32.toNat, BitVec.toNat_ofNatLt]

theorem lowerChar_eq_self (c : Char) (h : ¬(65 ≤ c.toNat ∧ c.toNat ≤ 90)) :
    lowerChar c = c := by
  simp only [lowerChar, Bool.and_eq_true, decide_eq_true_eq, if_neg h]

theorem lowerChar_eq_shift (c : Char) (h : 65 ≤ c.toNat ∧ c.toNat ≤ 90) :
    lowerChar c = Char.ofNat (c.toNat + 32) := by
  simp only [lowerChar, Bool.and_eq_true, decide_eq_true_eq, if_pos h]

theorem lowerChar_lowerChar (c : Char) : lowerChar (lowerChar c) = lowerChar c := by
  by_cases h : 65 ≤ c.toNat ∧ c.toNat ≤ 90
  · rw [lowerChar_eq_shift c h]
    apply lowerChar_eq_self
    rw [toNat_ofNat_valid _ (by omega)]
    omega
  · rw [lowerChar_eq_self c h]
    exact lowerChar_eq_self c h

theorem isWs_lowerChar (c : Char) : isWs (lowerChar c) = isWs c := by
  by_cases h : 65 ≤ c.toNat ∧ c.toNat ≤ 90
  · have h1 : isWs (lowerChar c) = false := by
      rw [lowerChar_eq_shift c h]
      simp only [isWs, toNat_ofNat_valid _ (show c.toNat + 32 < 55296 by omega),
        Bool.or_eq_false_iff, beq_eq_false_iff_ne, ne_eq]
      omega
    have h2 : isWs c = false := by
      simp only [isWs, Bool.or_eq_false_iff, beq_eq_false_iff_ne, ne_eq]
      omega
    rw [h1, h2]
  · rw [lowerChar_eq_self c h]

/-! ### List-level strip/lower lemmas, leading to idempotency of
`normalizeEmail` -/

theorem dropWhile_idem (p : α → Bool) (l : List α) :
    (l.dropWhile p).dropWhile p = l.dropWhile p := by
  induction l with
  | nil => rfl
  | cons x xs ih =>
      by_cases h : p x
      · rw [List.dropWhile_cons, if_pos h, ih]
      · rw [List.dropWhile_cons, if_neg h, List.dropWhile_cons, if_neg h]

theorem stripL_stripL (l : List Char) : stripL (stripL l) = stripL l :=
  dropWhile_idem isWs l

theorem stripR_stripR (l : List Char) : stripR (stripR l) = stripR l := by
  unfold stripR
  rw [List.reverse_reverse, dropWhile_idem]

/-- `stripR` keeps a prefix of the list. -/
theorem stripR_eq_append (l : List Char) : ∃ t, l = stripR l ++ t := by
  obtain ⟨t, ht⟩ : ∃ t, l.reverse = t ++ l.reverse.dropWhile isWs :=
    ⟨l.reverse.takeWhile isWs, (List.takeWhile_append_dropWhile isWs l.reverse).symm⟩
  refine ⟨t.reverse, ?_⟩
  have := congrArg List.reverse ht
  rw [List.reverse_reverse, List.reverse_append] at this
  exact this

theorem dropWhile_eq_cons_head_false (p : α → Bool) (l : List α) (a : α) (t : List α)
    (h : l.dropWhile p = a :: t) : p a = false := by
  induction l with
  | nil => exact absurd h (by simp)
  | cons x xs ih =>
      rw [List.dropWhile_cons] at h
      by_cases hx : p x
      · rw [if_pos hx] at h
        exact ih h
      · rw [if_neg hx] at h
        cases h
        exact Bool.eq_false_iff.mpr hx

theorem stripL_stripR_stripL (l : List Char) :
    stripL (stripR (stripL l)) = stripR (stripL l) := by
  cases hm : stripR (stripL l) with
  | nil => rfl
  | cons a t =>
      have ha : isWs a = false := by
        obtain ⟨u, hu⟩ := stripR_eq_append (stripL l)
        rw [hm] at hu
        refine dropWhile_eq_cons_head_false isWs l a (t ++ u) ?_
        rw [List.cons_append] at hu
        exact hu
      rw [stripL, List.dropWhile_cons, if_neg (by rw [ha]; exact Bool.false_ne_true)]

theorem strip_list_idem (l : List Char) :
    stripR (stripL (stripR (stripL l))) = stripR (stripL l) := by
  rw [stripL_stripR_stripL, stripR_stripR]

theorem pyStrip_pyStrip (s : String) : pyStrip (pyStrip s) = pyStrip s := by
  simp only [pyStrip]
  rw [strip_list_idem]

theorem map_lowerChar_dropWhile (l : List Char) :
    (l.map lowerChar).dropWhile isWs = (l.dropWhile isWs).map lowerChar := by
  rw [List.dropWhile_map]
  rw [show (isWs ∘ lowerChar) = isWs from funext isWs_lowerChar]

theorem stripL_map_lower (l : List Char) :
    stripL (l.map lowerChar) = (stripL l).map lowerChar :=
  map_lowerChar_dropWhile l

theorem stripR_map_lower (l : List Char) :
    stripR (l.map lowerChar) = (stripR l).map lowerChar := by
  unfold stripR
  rw [← List.map_reverse, map_lowerChar_dropWhile, List.map_reverse]

theorem pyStrip_pyLower (s : String) : pyStrip (pyLower s) = pyLower (pyStrip s) := by
  simp only [pyStrip, pyLower]
  rw [stripL_map_lower, stripR_map_lower]

theorem pyLower_pyLower (s : String) : pyLower (pyLower s) = pyLower s := by
  simp only [pyLower, List.map_map]
  rw [show (lowerChar ∘ lowerChar) = lowerChar from funext lowerChar_lowerChar]

/-- Normalizing an already normalized email is a no-op; this is what makes
`get_user_by_email` (which re-normalizes its argument) agree with the
normalized emails stored by `signup`. -/
theorem normalizeEmail_idem (s : String) :
    normalizeEmail (normalizeEmail s) = normalizeEmail s := by
  unfold normalizeEmail
  rw [pyStrip_pyLower, pyStrip_pyStrip, pyLower_pyLower]

/-! ### Models of Python `str(int)` and `int(str)`

`create_access_token` stores `str(user.id)` in the JWT `sub` claim and
`get_current_user` recovers it with `int(user_id_str)`.  `str` of a
non-negative int is `Nat.repr`; `int` applied to a plain digit string (the
only shape the service produces) is modelled by `pyInt`. -/

/-- Model of Python `str` on a non-negative integer. -/
def pyStr (n : Nat) : String := Nat.repr n

/-- Decimal digit test. -/
def isDigitChar (c : Char) : Bool := 48 ≤ c.toNat && c.toNat ≤ 57

/-- Numeric value of a digit character. -/
def digitVal (c : Char) : Nat := c.toNat - 48

/-- Model of Python `int(s)` restricted to plain decimal digit strings;
on anything else it raises `ValueError`, modelled as `none`. -/
def pyInt (s : String) : Option Nat :=
  if !s.data.isEmpty && s.data.all isDigitChar then
    some (s.data.foldl (fun n c => n * 10 + digitVal c) 0)
  else none

/-- The decimal digits of `n`, least significant first; structural
counterpart of `Nat.toDigitsCore`'s fuelled recursion. -/
def digitsRev (n : Nat) : List Nat :=
  if h : n < 10 then [n] else (n % 10) :: digitsRev (n / 10)
termination_by n
decreasing_by exact Nat.div_lt_self (by omega) (by omega)

theorem digitsRev_lt (n : Nat) : ∀ d ∈ digitsRev n, d < 10 := by
  induction n using Nat.strong_induction_on with
  | _ n ih =>
      rw [digitsRev]
      by_cases h : n < 10
      · rw [dif_pos h]
        intro d hd
        simp only [List.mem_singleton] at hd
        omega
      · rw [dif_neg h]
        intro d hd
        rcases List.mem_cons.mp hd with h1 | h1
        · omega
        · exact ih (n / 10) (Nat.div_lt_self (by omega) (by omega)) d h1

theorem digitsRev_ne_nil (n : Nat) : digitsRev n ≠ [] := by
  rw [digitsRev]
  by_cases h : n < 10
  · rw [dif_pos h]
    exact List.cons_ne_nil _ _
  · rw [dif_neg h]
    exact List.cons_ne_nil _ _

theorem toDigitsCore_eq_digitsRev (fuel : Nat) : ∀ (n : Nat) (ds : List Char),
    n < 10 ^ fuel → 0 < fuel →
    Nat.toDigitsCore 10 fuel n ds = (digitsRev n).reverse.map Nat.digitChar ++ ds := by
  induction fuel with
  | zero => intro n ds _ hpos; omega
  | succ fuel ih =>
      intro n ds hlt _
      by_cases h0 : n / 10 = 0
      · have hn : n < 10 := by omega
        have : Nat.toDigitsCore 10 (fuel + 1) n ds = Nat.digitChar (n % 10) :: ds := by
          simp only [Nat.toDigitsCore, h0, if_pos]
        rw [this, digitsRev, dif_pos hn, Nat.mod_eq_of_lt hn]
        rfl
      · have hn : ¬ n < 10 := by omega
        have hstep : Nat.toDigitsCore 10 (fuel + 1) n ds
            = Nat.toDigitsCore 10 fuel (n / 10) (Nat.digitChar (n % 10) :: ds) := by
          simp only [Nat.toDigitsCore, h0, if_neg, ite_false]
        have hfuel : 0 < fuel := by
          rcases Nat.eq_zero_or_pos fuel with hf | hf
          · subst hf; omega
          · exact hf
        have hlt2 : n / 10 < 10 ^ fuel := by
          rw [Nat.div_lt_iff_lt_mul (by omega)]
          calc n < 10 ^ (fuel + 1) := hlt
          _ = 10 ^ fuel * 10 := by ring
        have hdr : digitsRev n = (n % 10) :: digitsRev (n / 10) := by
          rw [digitsRev]
          exact dif_neg hn
        rw [hstep, ih (n / 10) _ hlt2 hfuel, hdr]
        simp only [List.reverse_cons, List.map_append, List.map_cons, List.map_nil,
          List.append_assoc, List.singleton_append, List.nil_append]

theorem toDigits_eq_digitsRev (n : Nat) :
    Nat.toDigits 10 n = (digitsRev n).reverse.map Nat.digitChar := by
  have h := toDigitsCore_eq_digitsRev (n + 1) n []
    (lt_of_lt_of_le (Nat.lt_pow_self (by omega) n) (Nat.pow_le_pow_right (by omega) (by omega)))
    (by omega)
  rw [Nat.toDigits, h, List.append_nil]

theorem digitChar_isDigit : ∀ d, d < 10 → isDigitChar (Nat.digitChar d) = true := by decide

theorem digitVal_digitChar : ∀ d, d < 10 → digitVal (Nat.digitChar d) = d := by decide

theorem foldl_digits_value (n : Nat) : ∀ a : Nat,
    (digitsRev n).reverse.foldl (fun acc d => acc * 10 + d) a
      = a * 10 ^ (digitsRev n).length + n := by
  induction n using Nat.strong_induction_on with
  | _ n ih =>
      intro a
      by_cases h : n < 10
      · rw [digitsRev, dif_pos h]
        simp [List.foldl]
      · rw [digitsRev, dif_neg h]
        have hrec := ih (n / 10) (Nat.div_lt_self (by omega) (by omega))
        simp only [List.reverse_cons, List.foldl_append, List.foldl_cons, List.foldl_nil,
          List.length_cons]
        rw [hrec a]
        have := Nat.div_add_mod n 10
        ring_nf
        omega

theorem foldl_digitVal_map (l : List Nat) (h : ∀ d ∈ l, d < 10) : ∀ a : Nat,
    l.foldl (fun acc d => acc * 10 + digitVal (Nat.digitChar d)) a
      = l.foldl (fun acc d => acc * 10 + d) a := by
  induction l with
  | nil => intro a; rfl
  | cons x xs ih =>
      intro a
      simp only [List.foldl_cons]
      rw [digitVal_digitChar x (h x (List.mem_cons_self x xs))]
      exact ih (fun d hd => h d (List.mem_cons_of_mem x hd)) _

/-- `int(str(n)) = n`: the round trip through the JWT `sub` claim. -/
theorem pyInt_pyStr (n : Nat) : pyInt (pyStr n) = some n := by
  have hdata : (pyStr n).data = (digitsRev n).reverse.map Nat.digitChar := by
    show (Nat.toDigits 10 n).asString.data = _
    rw [toDigits_eq_digitsRev]
    rfl
  have hne : (digitsRev n).reverse.map Nat.digitChar ≠ [] := by
    simp only [ne_eq, List.map_eq_nil, List.reverse_eq_nil_iff]
    exact digitsRev_ne_nil n
  have hall : ((digitsRev n).reverse.map Nat.digitChar).all isDigitChar = true := by
    rw [List.all_eq_true]
    intro c hc
    rcases List.mem_map.mp hc with ⟨d, hd, rfl⟩
    exact digitChar_isDigit d (digitsRev_lt n d (List.mem_reverse.mp hd))
  have hie : ((digitsRev n).reverse.map Nat.digitChar).isEmpty = false := by
    cases hcase : (digitsRev n).reverse.map Nat.digitChar with
    | nil => exact absurd hcase hne
    | cons a t => rfl
  rw [pyInt, hdata]
  rw [if_pos (by rw [hie, hall]; rfl)]
  rw [List.foldl_map]
  rw [foldl_digitVal_map _ (fun d hd => digitsRev_lt n d (List.mem_reverse.mp hd)) 0]
  rw [foldl_digits_value n 0]
  simp

/-- `str(n)` is never the empty string (the falsy-`sub` check in
`get_current_user` cannot fire on a token the service issued). -/
theorem pyStr_ne_empty (n : Nat) : pyStr n ≠ "" := by
  intro h
  have : (pyStr n).data = [] := congrArg String.data h
  rw [show (pyStr n).data = (digitsRev n).reverse.map Nat.digitChar by
    show (Nat.toDigits 10 n).asString.data = _
    rw [toDigits_eq_digitsRev]
    rfl] at this
  simp only [List.map_eq_nil, List.reverse_eq_nil_iff] at this
  exact digitsRev_ne_nil n this

/-! ### Data model (`database.py`)

The `users` table: id, name, email, password hash, creation timestamp.
Timestamps are abstract `Nat` ticks. -/

/-- One row of the `users` table (`class User` in `database.py`). -/
structure UserRec where
  id : Nat
  name : String
  email : String
  password_hash : String
  created_at : Nat
deriving Repr, DecidableEq

/-- The persistent store: the list of user rows in insertion order. -/
abbrev DB := List UserRec

/-- Model of a raised `HTTPException(status_code, detail)`. -/
structure HErr where
  status : Nat
  detail : String
deriving Repr, DecidableEq

/-- `str(exc)` for a starlette `HTTPException`:
`f"{status_code}: {detail}"`. -/
def httpExceptionStr (e : HErr) : String :=
  pyStr e.status ++ ": " ++ e.detail

/-- The SQLite auto-increment primary key: one more than the largest id
present. -/
def nextId (db : DB) : Nat := (db.map (fun u => u.id)).foldl max 0 + 1

/-! ### Auth (`auth.py`) -/

/-- Default `SECRET_KEY` from `auth.py`. -/
def SECRET_KEY : String := "your-secret-key-change-in-production-min-32-chars"

/-- `ACCESS_TOKEN_EXPIRE_MINUTES = 60 * 24 * 7`. -/
def ACCESS_TOKEN_EXPIRE_MINUTES : Nat := 60 * 24 * 7

/-- Abstract model of the passlib bcrypt context: `hash_password` and
`verify_password` are opaque functions supplied by the environment. -/
structure CryptoCtx where
  hash : String → String
  verify : String → String → Bool

/-- Model of a signed JWT: the claims (`sub`, `exp`) together with the key
it was signed with.  `decode_token` only yields the payload when the key
matches `SECRET_KEY` and the token has not expired. -/
structure Token where
  sub : String
  exp : Nat
  key : String
deriving Repr, DecidableEq

/-- Decoded JWT payload. -/
structure Payload where
  sub : String
  exp : Nat
deriving Repr, DecidableEq

/-- `create_access_token({"sub": user.id})`: the call sites always pass an
int id, which the function stringifies; expiry is `now` plus
`ACCESS_TOKEN_EXPIRE_MINUTES` (in seconds here). -/
def create_access_token (sub : Nat) (now : Nat) : Token :=
  { sub := pyStr sub, exp := now + ACCESS_TOKEN_EXPIRE_MINUTES * 60, key := SECRET_KEY }

/-- `decode_token`: jose validates the signature against `SECRET_KEY` and
the `exp` claim against the current time; on failure (`JWTError`) the
function returns `None`. -/
def decode_token (tok : Token) (now : Nat) : Option Payload :=
  if tok.key == SECRET_KEY && decide (now < tok.exp) then
    some { sub := tok.sub, exp := tok.exp }
  else none

/-- `get_user_by_email`: first row whose stored email equals the
normalized (stripped, lowercased) argument. -/
def get_user_by_email (db : DB) (email : String) : Option UserRec :=
  db.find? (fun u => u.email == normalizeEmail email)

/-- `get_user_by_id`: first row with the given primary key. -/
def get_user_by_id (db : DB) (uid : Nat) : Option UserRec :=
  db.find? (fun u => u.id == uid)

/-- `get_current_user` dependency: requires bearer credentials carrying a
valid token whose `sub` parses to the id of a stored user; all failures
are 401s.  A `Token` value always carries a `sub` claim, so the
`"sub" not in payload` branch coincides with the `none` branch here; the
falsy check `not user_id_str` is the empty-string test. -/
def get_current_user (cred : Option Token) (db : DB) (now : Nat) :
    Except HErr UserRec :=
  match cred with
  | none => .error ⟨401, "Not authenticated"⟩
  | some tok =>
    match decode_token tok now with
    | none => .error ⟨401, "Invalid or expired token"⟩
    | some payload =>
      if payload.sub == "" then .error ⟨401, "Invalid token"⟩
      else
        match pyInt payload.sub with
        | none => .error ⟨401, "Invalid token"⟩
        | some uid =>
          match get_user_by_id db uid with
          | none => .error ⟨401, "User not found"⟩
          | some u => .ok u

/-! ### Request/response schemas (`auth.py`) -/

/-- `SignupRequest`. -/
structure SignupRequest where
  name : String
  email : String
  password : String
deriving Repr, DecidableEq

/-- `LoginRequest`. -/
structure LoginRequest where
  email : String
  password : String
deriving Repr, DecidableEq

/-- `UserResponse`. -/
structure UserResponse where
  id : Nat
  name : String
  email : String
deriving Repr, DecidableEq

/-- `TokenResponse` (`token_type` is the constant `"bearer"`). -/
structure TokenResponse where
  access_token : Token
  user : UserResponse
deriving Repr, DecidableEq

/-! ### Auth routes (`app.py`) -/

/-- `POST /api/signup`.  Returns the handler result together with the
database after the request (unchanged on every error path). -/
def signup (ctx : CryptoCtx) (now : Nat) (db : DB) (body : SignupRequest) :
    Except HErr TokenResponse × DB :=
  let name := pyStrip body.name
  let email := pyLower (pyStrip body.email)
  let password := body.password
  if name == "" || name.length < 2 then
    (.error ⟨400, "Name must be at least 2 characters"⟩, db)
  else if email == "" || !(pyInStr '@' email) then
    (.error ⟨400, "Valid email required"⟩, db)
  else if password == "" || password.length < 6 then
    (.error ⟨400, "Password must be at least 6 characters"⟩, db)
  else if (get_user_by_email db email).isSome then
    (.error ⟨400, "Email already registered"⟩, db)
  else
    let user : UserRec :=
      { id := nextId db, name := name, email := email,
        password_hash := ctx.hash password, created_at := now }
    (.ok { access_token := create_access_token user.id now,
           user := { id := user.id, name := user.name, email := user.email } },
     db ++ [user])

/-- `POST /api/login`. -/
def login (ctx : CryptoCtx) (now : Nat) (db : DB) (body : LoginRequest) :
    Except HErr TokenResponse × DB :=
  let email := normalizeEmail body.email
  let password := body.password
  if email == "" || password == "" then
    (.error ⟨400, "Email and password required"⟩, db)
  else
    match get_user_by_email db email with
    | none => (.error ⟨401, "Invalid email or password"⟩, db)
    | some user =>
      if ctx.verify password user.password_hash then
        (.ok { access_token := create_access_token user.id now,
               user := { id := user.id, name := user.name, email := user.email } },
         db)
      else (.error ⟨401, "Invalid email or password"⟩, db)

/-- `GET /api/me`. -/
def me (cred : Option Token) (now : Nat) (db : DB) :
    Except HErr UserResponse × DB :=
  match get_current_user cred db now with
  | .error e => (.error e, db)
  | .ok u => (.ok { id := u.id, name := u.name, email := u.email }, db)

/-! ### USDA nutrition lookup (`app.py`)

Nutrient values are floats in the payload; the service never computes
with them, so the value type is a parameter `α`. -/

/-- One entry of `food["foodNutrients"]`; `dict.get` of a possibly
missing key is an `Option`. -/
structure FoodNutrient (α : Type) where
  nutrientName : Option String
  value : Option α
deriving Repr, DecidableEq

/-- One entry of `data["foods"]`; `food.get("foodNutrients", [])` defaults
to the empty list, so the field is a plain list. -/
structure Food (α : Type) where
  description : Option String
  foodNutrients : List (FoodNutrient α)
deriving Repr, DecidableEq

/-- The parsed USDA search payload as `extract_nutrients` reads it. -/
structure UsdaData (α : Type) where
  foods : Option (List (Food α))
deriving Repr, DecidableEq

/-- The raw upstream HTTP response: status code plus parsed JSON body. -/
structure UsdaResp (α : Type) where
  status_code : Nat
  body : UsdaData α
deriving Repr, DecidableEq

/-- `fetch_nutritional_data`: raises `HTTPException(502, "USDA API failed")`
on any non-200 upstream status, otherwise returns the parsed body. -/
def fetch_nutritional_data (resp : UsdaResp α) : Except HErr (UsdaData α) :=
  if resp.status_code ≠ 200 then .error ⟨502, "USDA API failed"⟩
  else .ok resp.body

/-- `NUTRIENT_KEYS` from `app.py`. -/
def NUTRIENT_KEYS : List String :=
  ["Energy", "Protein", "Total lipid (fat)", "Carbohydrate, by difference",
   "Fiber, total dietary", "Vitamin A, RAE", "Vitamin C, total ascorbic acid",
   "Vitamin D (D2 + D3)", "Calcium, Ca", "Iron, Fe", "Sodium, Na", "Potassium, K"]

/-- Association-list model of a Python dict under key assignment:
overwrite an existing key in place, otherwise append. -/
def dictInsert (d : List (String × Option α)) (k : String) (v : Option α) :
    List (String × Option α) :=
  if d.any (fun p => p.1 == k) then
    d.map (fun p => if p.1 == k then (k, v) else p)
  else d ++ [(k, v)]

/-- Model of Python substring containment `needle in hay`. -/
def strHasSub (needle hay : String) : Bool :=
  decide (needle.data <:+: hay.data)

/-- The vitamin/mineral name filter of `extract_nutrients`; a missing
name behaves as `""` via `(name or "")`. -/
def isVitaminLike (name : Option String) : Bool :=
  let s := name.getD ""
  strHasSub "Vitamin" s || strHasSub "Calcium" s || strHasSub "Iron" s ||
  strHasSub "Sodium" s || strHasSub "Potassium" s

/-- One iteration of the `for n in food.get("foodNutrients", [])` loop:
state is the pair of dicts (`nutrients`, `vitamins_minerals`). -/
def nutrientStep (acc : List (String × Option α) × List (String × Option α))
    (n : FoodNutrient α) :
    List (String × Option α) × List (String × Option α) :=
  let nuts :=
    match n.nutrientName with
    | some nm => if nm ∈ NUTRIENT_KEYS then dictInsert acc.1 nm n.value else acc.1
    | none => acc.1
  let vits :=
    if n.value.isSome && isVitaminLike n.nutrientName then
      dictInsert acc.2 (n.nutrientName.getD "") n.value
    else acc.2
  (nuts, vits)

/-- Result of `extract_nutrients`: either the error dict or the shaped
result dict. -/
inductive ExtractResult (α : Type) where
  | error (msg : String)
  | ok (food_name : Option String) (nutrients : List (String × Option α))
       (vitamins_minerals : List (String × Option α))
deriving Repr, DecidableEq

/-- `extract_nutrients`: `if not foods` is Python falsiness, true for both
a missing key and an empty list. -/
def extract_nutrients (data : UsdaData α) : ExtractResult α :=
  match data.foods with
  | none => .error "No nutrition data found"
  | some [] => .error "No nutrition data found"
  | some (food :: _) =>
    let acc := food.foodNutrients.foldl nutrientStep ([], [])
    .ok food.description acc.1 acc.2

/-! ### Classifier cache (`app.py`) -/

/-- Environment for `get_classifier`: the result of `_get_model_path()`
and the (opaque) loaded-model handle produced by ImageAI for a path. -/
structure ClassifierEnv where
  model_path : Option String
  load : String → Nat

/-- `get_classifier` over the module-global `_classifier` cache.  Returns
the result, the new cache, and how many model loads this call performed. -/
def get_classifier (env : ClassifierEnv) (cache : Option Nat) :
    Except String Nat × Option Nat × Nat :=
  match cache with
  | some c => (.ok c, some c, 0)
  | none =>
    match env.model_path with
    | none => (.error "Model file resnet50-19c8e357.pth not found", none, 0)
    | some p => (.ok (env.load p), some (env.load p), 1)

/-! ### `POST /api/fruit-detection` (`app.py`) -/

/-- The uploaded file as far as the handler inspects it. -/
structure UploadFile where
  content_type : String
deriving Repr, DecidableEq

/-- Outcome of `get_classifier()` + `classifier.classifyImage(...)` +
`predictions[0]` inside the `try` block: either a top label with its
(opaque, `β`-valued) rounded confidence, or a raised exception with its
`str`. -/
inductive ClassifyOutcome (β : Type) where
  | ok (label : String) (conf : β)
  | exn (msg : String)
deriving Repr, DecidableEq

/-- External calls the handler performs, in order. -/
inductive ExtCall where
  | classify
  | usda
deriving Repr, DecidableEq

/-- What the route sends back: a propagated `HTTPException`, the 500
`JSONResponse` built by the broad `except Exception` handler, or the
200 result dict. -/
inductive HttpOut (α β : Type) where
  | httpError (e : HErr)
  | errorJson (status : Nat) (error : String) (detail : String)
  | success (detected_fruit : String) (confidence : β)
            (nutrition_info : ExtractResult α)
deriving Repr, DecidableEq

/-- The `fruit_detection` handler.  `auth` is the resolved
`get_current_user` dependency (FastAPI runs it before the body).  The
`except Exception` clause catches *every* exception raised inside the
`try`, including the `HTTPException(502, ...)` raised by
`fetch_nutritional_data`, turning it into a 500 `JSONResponse` whose
detail is `str(e)`. -/
def fruit_detection (auth : Except HErr UserRec) (file : UploadFile)
    (classify : ClassifyOutcome β) (usda : UsdaResp α) :
    HttpOut α β × List ExtCall :=
  match auth with
  | .error e => (.httpError e, [])
  | .ok _ =>
    if !pyStartsWith file.content_type "image/" then
      (.httpError ⟨400, "Only image files allowed"⟩, [])
    else
      match classify with
      | .exn msg => (.errorJson 500 "processing_failed" msg, [.classify])
      | .ok label conf =>
        match fetch_nutritional_data usda with
        | .error e =>
          (.errorJson 500 "processing_failed" (httpExceptionStr e),
           [.classify, .usda])
        | .ok data =>
          (.success label conf (extract_nutrients data), [.classify, .usda])

/-! ### Request sequences over the shared database -/

/-- One incoming request, with the external inputs it depends on. -/
inductive Op (α β : Type) where
  | opSignup (body : SignupRequest) (now : Nat)
  | opLogin (body : LoginRequest) (now : Nat)
  | opMe (cred : Option Token) (now : Nat)
  | opDetect (cred : Option Token) (now : Nat) (file : UploadFile)
             (classify : ClassifyOutcome β) (usda : UsdaResp α)

/-- Whether an operation is a signup. -/
def isSignupOp : Op α β → Bool
  | .opSignup _ _ => true
  | _ => false

/-- The database after handling one request. -/
def step (ctx : CryptoCtx) (db : DB) : Op α β → DB
  | .opSignup body now => (signup ctx now db body).2
  | .opLogin body now => (login ctx now db body).2
  | .opMe cred now => (me cred now db).2
  | .opDetect cred now file classify usda =>
    let _ := fruit_detection (get_current_user cred db now) file classify usda
    db

/-- The database after handling a sequence of requests. -/
def runOps (ctx : CryptoCtx) (db : DB) (ops : List (Op α β)) : DB :=
  ops.foldl (step ctx) db

/-! ### Generic helper lemmas -/

instance {ε α : Type} [DecidableEq ε] [DecidableEq α] : DecidableEq (Except ε α) :=
  fun a b =>
    match a, b with
    | .error e1, .error e2 =>
      if h : e1 = e2 then isTrue (by rw [h]) else isFalse (fun hh => by cases hh; exact h rfl)
    | .error _, .ok _ => isFalse (fun hh => by cases hh)
    | .ok _, .error _ => isFalse (fun hh => by cases hh)
    | .ok v1, .ok v2 =>
      if h : v1 = v2 then isTrue (by rw [h]) else isFalse (fun hh => by cases hh; exact h rfl)

/-- Status code of an error result, `none` for success. -/
def errStatus : Except HErr γ → Option Nat
  | .error e => some e.status
  | .ok _ => none

theorem foldl_max_le_init (l : List Nat) : ∀ a : Nat, a ≤ l.foldl max a := by
  induction l with
  | nil => intro a; exact Nat.le_refl a
  | cons b t ih =>
      intro a
      exact le_trans (Nat.le_max_left a b) (ih (max a b))

theorem mem_le_foldl_max (l : List Nat) : ∀ (a x : Nat), x ∈ l → x ≤ l.foldl max a := by
  induction l with
  | nil => intro a x hx; exact absurd hx (List.not_mem_nil x)
  | cons b t ih =>
      intro a x hx
      rcases List.mem_cons.mp hx with rfl | hx
      · exact le_trans (Nat.le_max_right a x) (foldl_max_le_init t (max a x))
      · exact ih (max a b) x hx

theorem mem_id_lt_nextId (db : DB) (u : UserRec) (hu : u ∈ db) : u.id < nextId db := by
  have : u.id ≤ (db.map (fun v => v.id)).foldl max 0 :=
    mem_le_foldl_max _ 0 u.id (List.mem_map.mpr ⟨u, hu, rfl⟩)
  unfold nextId
  omega

theorem get_user_by_email_norm (db : DB) (s : String) :
    get_user_by_email db (normalizeEmail s) = get_user_by_email db s := by
  unfold get_user_by_email
  rw [normalizeEmail_idem]

/-! ### Inversion lemmas for the handlers -/

/-- What a successful signup implies: every validation passed, the email
was free, and the result and new database have the expected shape. -/
theorem signup_ok_inv (ctx : CryptoCtx) (now : Nat) (db : DB) (body : SignupRequest)
    (tr : TokenResponse) (db' : DB)
    (h : signup ctx now db body = (.ok tr, db')) :
    2 ≤ (pyStrip body.name).length ∧
    pyInStr '@' (normalizeEmail body.email) = true ∧
    6 ≤ body.password.length ∧
    get_user_by_email db (normalizeEmail body.email) = none ∧
    db' = db ++ [⟨nextId db, pyStrip body.name, normalizeEmail body.email,
                  ctx.hash body.password, now⟩] ∧
    tr = ⟨create_access_token (nextId db) now,
          ⟨nextId db, pyStrip body.name, normalizeEmail body.email⟩⟩ := by
  rw [signup] at h
  simp only [normalizeEmail] at *
  split_ifs at h with h1 h2 h3 h4
  · exact absurd h (by simp)
  · exact absurd h (by simp)
  · exact absurd h (by simp)
  · exact absurd h (by simp)
  · simp only [Bool.or_eq_true, not_or, Bool.not_eq_true, beq_eq_false_iff_ne, ne_eq,
      decide_eq_false_iff_not, Bool.not_eq_false] at h1 h2 h3
    simp only [Option.isSome_iff_exists, not_exists] at h4
    simp only [Prod.mk.injEq, Except.ok.injEq] at h
    refine ⟨by omega, by simpa using h2.2, by omega, ?_, h.2.symm, h.1.symm⟩
    cases hemail : get_user_by_email db (pyLower (pyStrip body.email)) with
    | none => rfl
    | some u => exact absurd hemail (h4 u)

/-- Every failing branch of `signup` is a 400 and leaves the database
unchanged; the only other possibility is success, which appends one row. -/
theorem signup_cases (ctx : CryptoCtx) (now : Nat) (db : DB) (body : SignupRequest) :
    (∃ d, signup ctx now db body = (.error ⟨400, d⟩, db)) ∨
    (∃ tr u, signup ctx now db body = (.ok tr, db ++ [u])) := by
  rw [signup]
  split_ifs
  · exact Or.inl ⟨_, rfl⟩
  · exact Or.inl ⟨_, rfl⟩
  · exact Or.inl ⟨_, rfl⟩
  · exact Or.inl ⟨_, rfl⟩
  · exact Or.inr ⟨_, _, rfl⟩

/-- Shared engine for C2 and C3: any failed validation or duplicate email
gives a 400 with the database unchanged. -/
theorem signup_rejects (ctx : CryptoCtx) (now : Nat) (db : DB) (body : SignupRequest)
    (hbad : (pyStrip body.name).length < 2 ∨
            pyInStr '@' (normalizeEmail body.email) = false ∨
            body.password.length < 6 ∨
            (get_user_by_email db (normalizeEmail body.email)).isSome = true) :
    errStatus (signup ctx now db body).1 = some 400 ∧ (signup ctx now db body).2 = db := by
  rcases signup_cases ctx now db body with ⟨d, hd⟩ | ⟨tr, u, hu⟩
  · rw [hd]
    exact ⟨rfl, rfl⟩
  · obtain ⟨hn, he, hp, hfree, _, _⟩ := signup_ok_inv ctx now db body tr _ hu
    rcases hbad with hb | hb | hb | hb
    · omega
    · rw [he] at hb
      exact absurd hb (by simp)
    · omega
    · rw [hfree] at hb
      exact absurd hb (by simp)

/-- `login` never changes the database. -/
theorem login_db_unchanged (ctx : CryptoCtx) (now : Nat) (db : DB) (body : LoginRequest) :
    (login ctx now db body).2 = db := by
  rw [login]
  split
  · rfl
  · split
    · rfl
    · split
      · rfl
      · rfl

/-- `me` never changes the database. -/
theorem me_db_unchanged (cred : Option Token) (now : Nat) (db : DB) :
    (me cred now db).2 = db := by
  rw [me]
  split
  · rfl
  · rfl

/-- Members of `dictInsert d k v` are old members or the new pair. -/
theorem mem_dictInsert (d : List (String × Option α)) (k : String) (v : Option α)
    (p : String × Option α) (hp : p ∈ dictInsert d k v) : p ∈ d ∨ p = (k, v) := by
  unfold dictInsert at hp
  by_cases hany : d.any (fun q => q.1 == k) = true
  · rw [if_pos hany] at hp
    obtain ⟨q, hq, hfq⟩ := List.mem_map.mp hp
    by_cases hqk : q.1 == k
    · rw [if_pos hqk] at hfq
      exact Or.inr hfq.symm
    · rw [if_neg hqk] at hfq
      exact Or.inl (hfq ▸ hq)
  · rw [if_neg hany] at hp
    rcases List.mem_append.mp hp with h | h
    · exact Or.inl h
    · exact Or.inr (List.mem_singleton.mp h)

/-- The loop invariant of `extract_nutrients`: `nutrients` only ever holds
keys from `NUTRIENT_KEYS`, and `vitamins_minerals` only non-`None`
values. -/
def NutrientInv (acc : List (String × Option α) × List (String × Option α)) : Prop :=
  (∀ p ∈ acc.1, p.1 ∈ NUTRIENT_KEYS) ∧ (∀ p ∈ acc.2, p.2 ≠ none)

theorem nutrientStep_inv (acc : List (String × Option α) × List (String × Option α))
    (n : FoodNutrient α) (h : NutrientInv acc) : NutrientInv (nutrientStep acc n) := by
  obtain ⟨h1, h2⟩ := h
  constructor
  · intro p hp
    cases hname : n.nutrientName with
    | none =>
        simp only [nutrientStep, hname] at hp
        exact h1 p hp
    | some nm =>
        simp only [nutrientStep, hname] at hp
        by_cases hk : nm ∈ NUTRIENT_KEYS
        · rw [if_pos hk] at hp
          rcases mem_dictInsert _ _ _ _ hp with hold | rfl
          · exact h1 p hold
          · exact hk
        · rw [if_neg hk] at hp
          exact h1 p hp
  · intro p hp
    simp only [nutrientStep] at hp
    by_cases hc : (n.value.isSome && isVitaminLike n.nutrientName) = true
    · rw [if_pos hc] at hp
      rcases mem_dictInsert _ _ _ _ hp with hold | rfl
      · exact h2 p hold
      · simp only [Bool.and_eq_true] at hc
        exact Option.isSome_iff_ne_none.mp hc.1
    · rw [if_neg hc] at hp
      exact h2 p hp

/-! ### Concrete fixtures used by witnesses and counterexamples -/

/-- A concrete crypto context standing in for bcrypt in executable
witnesses: `hash` is the identity and `verify` compares directly. -/
def ctx0 : CryptoCtx := ⟨fun s => s, fun p h => p == h⟩

/-- A concrete stored user row. -/
def user0 : UserRec := ⟨1, "Al", "a@b.com", "secret1", 0⟩

/-- A concrete valid signup request. -/
def body0 : SignupRequest := ⟨"Al", " A@B.com ", "secret1"⟩

/-- The token that `signup ctx0 0 [] body0` issues. -/
def tok0 : Token := ⟨"1", 604800, SECRET_KEY⟩

/-- The response that `signup ctx0 0 [] body0` returns. -/
def tr0 : TokenResponse := ⟨tok0, ⟨1, "Al", "a@b.com"⟩⟩

/-! ### The claims -/

/-- C1: the spec says a non-200 USDA status maps to a 502 response.
`fetch_nutritional_data` indeed raises `HTTPException(502)`, but the
handler's `except Exception` swallows it (HTTPException subclasses
Exception) and returns a 500 `JSONResponse` with
`detail = str(e) = "502: USDA API failed"`, so the client sees 500, not
502.  Evaluated here on an authenticated image request where the USDA
API answers 500. -/
theorem claim_C1_code_divergence :
    fetch_nutritional_data (α := Unit) ⟨500, ⟨none⟩⟩ = .error ⟨502, "USDA API failed"⟩ ∧
    fruit_detection (α := Unit) (β := Unit) (.ok user0) ⟨"image/png"⟩
        (.ok "banana" ()) ⟨500, ⟨none⟩⟩
      = (.errorJson 500 "processing_failed" "502: USDA API failed",
         [.classify, .usda]) ∧
    (fruit_detection (α := Unit) (β := Unit) (.ok user0) ⟨"image/png"⟩
        (.ok "banana" ()) ⟨500, ⟨none⟩⟩).1
      ≠ .httpError ⟨502, "USDA API failed"⟩ := by
  refine ⟨rfl, ?_, ?_⟩ <;> decide

/-- C6: an authenticated fruit-detection request whose upload's content
type does not start with `image/` is rejected with a 400 before any
classification or nutrition lookup happens (the external-call trace is
empty), whatever the classifier and the USDA API would have returned. -/
theorem claim_C6_content_type (u : UserRec) (file : UploadFile)
    (classify : ClassifyOutcome β) (usda : UsdaResp α)
    (h : pyStartsWith file.content_type "image/" = false) :
    fruit_detection (.ok u) file classify usda
      = (.httpError ⟨400, "Only image files allowed"⟩, []) := by
  simp only [fruit_detection, h, Bool.not_false, if_pos]

theorem claim_C6_witness :
    fruit_detection (α := Unit) (β := Unit) (.ok user0) ⟨"text/plain"⟩
        (.ok "banana" ()) ⟨200, ⟨none⟩⟩
      = (.httpError ⟨400, "Only image files allowed"⟩, []) :=
  claim_C6_content_type user0 ⟨"text/plain"⟩ _ _ (by decide)

/-- C8: `get_classifier` loads the model at most once per process: a
successful call leaves exactly its result in the cache, a call that hits
the cache performs zero loads and returns the same object, and no single
call loads more than once. -/
theorem claim_C8_classifier_cached (env : ClassifierEnv) (cache : Option Nat)
    (c : Nat) (cache' : Option Nat) (k : Nat)
    (h : get_classifier env cache = (.ok c, cache', k)) :
    cache' = some c ∧ get_classifier env cache' = (.ok c, some c, 0) ∧ k ≤ 1 := by
  cases cache with
  | some c' =>
      simp only [get_classifier, Prod.mk.injEq, Except.ok.injEq] at h
      obtain ⟨rfl, rfl, rfl⟩ := h
      exact ⟨rfl, rfl, by omega⟩
  | none =>
      cases hp : env.model_path with
      | none =>
          rw [get_classifier, hp] at h
          exact absurd h (by simp)
      | some p =>
          rw [get_classifier, hp] at h
          simp only [Prod.mk.injEq, Except.ok.injEq] at h
          obtain ⟨rfl, rfl, rfl⟩ := h
          exact ⟨rfl, rfl, by omega⟩

theorem claim_C8_witness :
    (some 7 : Option Nat) = some 7 ∧
    get_classifier ⟨some "resnet50-19c8e357.pth", fun _ => 7⟩ (some 7)
      = (.ok 7, some 7, 0) ∧
    (1 : Nat) ≤ 1 :=
  claim_C8_classifier_cached ⟨some "resnet50-19c8e357.pth", fun _ => 7⟩ none 7 (some 7) 1 rfl

/-- C10: `extract_nutrients` returns the error dict exactly when `foods`
is missing or empty; otherwise its `nutrients` dict only carries keys
from `NUTRIENT_KEYS` and its `vitamins_minerals` dict only non-`None`
values. -/
theorem claim_C10_extract_nutrients (data : UsdaData α) :
    ((data.foods = none ∨ data.foods = some []) →
      extract_nutrients data = .error "No nutrition data found") ∧
    (∀ food rest, data.foods = some (food :: rest) →
      ∃ fn nuts vits, extract_nutrients data = .ok fn nuts vits) ∧
    (∀ fn nuts vits, extract_nutrients data = .ok fn nuts vits →
      (∀ p ∈ nuts, p.1 ∈ NUTRIENT_KEYS) ∧ (∀ p ∈ vits, p.2 ≠ none)) := by
  cases hf : data.foods with
  | none =>
      refine ⟨fun _ => by rw [extract_nutrients, hf],
        fun food rest heq => absurd heq (by simp), ?_⟩
      intro fn nuts vits h
      rw [extract_nutrients, hf] at h
      exact absurd h (by simp)
  | some foods =>
      cases foods with
      | nil =>
          refine ⟨fun _ => by rw [extract_nutrients, hf],
            fun food rest heq => absurd heq (by simp), ?_⟩
          intro fn nuts vits h
          rw [extract_nutrients, hf] at h
          exact absurd h (by simp)
      | cons food rest =>
          refine ⟨?_, ?_, ?_⟩
          · intro hcase
            rcases hcase with hc | hc
            · exact absurd hc (by simp)
            · exact absurd hc (by simp)
          · intro food' rest' _
            exact ⟨_, _, _, by rw [extract_nutrients, hf]⟩
          · intro fn nuts vits h
            rw [extract_nutrients, hf] at h
            have hinv : NutrientInv (food.foodNutrients.foldl nutrientStep ([], [])) :=
              List.foldlRecOn food.foodNutrients nutrientStep ([], [])
                ⟨fun p hp => absurd hp (List.not_mem_nil p),
                 fun p hp => absurd hp (List.not_mem_nil p)⟩
                (fun acc hacc n _ => nutrientStep_inv acc n hacc)
            simp only [ExtractResult.ok.injEq] at h
            obtain ⟨-, h2, h3⟩ := h
            exact ⟨h2 ▸ hinv.1, h3 ▸ hinv.2⟩

theorem claim_C10_witness :
    extract_nutrients (α := Unit) ⟨none⟩ = .error "No nutrition data found" ∧
    (("Energy", some ()) ∈ [("Energy", (some () : Option Unit))] →
      "Energy" ∈ NUTRIENT_KEYS) :=
  ⟨(claim_C10_extract_nutrients (α := Unit) ⟨none⟩).1 (Or.inl rfl),
   fun hp => ((claim_C10_extract_nutrients (α := Unit)
      ⟨some [⟨some "Banana", [⟨some "Energy", some ()⟩]⟩]⟩).2.2
      (some "Banana") [("Energy", some ())] [] rfl).1 ("Energy", some ()) hp⟩

/-- C7: user rows are append-only.  Any request sequence only ever
extends the stored user list (so a stored row is never updated or
deleted), and every operation other than signup leaves the database
exactly unchanged. -/
theorem claim_C7_users_append_only (ctx : CryptoCtx) (db : DB) (ops : List (Op α β)) :
    (∃ ext, runOps ctx db ops = db ++ ext) ∧
    (∀ (d : DB) (op : Op α β), isSignupOp op = false → step ctx d op = d) := by
  have hstep : ∀ (d : DB) (op : Op α β), ∃ ext, step ctx d op = d ++ ext := by
    intro d op
    cases op with
    | opSignup body now =>
        rcases signup_cases ctx now d body with ⟨e, he⟩ | ⟨tr, u, hu⟩
        · exact ⟨[], by rw [step, he, List.append_nil]⟩
        · exact ⟨[u], by rw [step, hu]⟩
    | opLogin body now => exact ⟨[], by rw [step, login_db_unchanged, List.append_nil]⟩
    | opMe cred now => exact ⟨[], by rw [step, me_db_unchanged, List.append_nil]⟩
    | opDetect cred now file classify usda => exact ⟨[], by rw [step, List.append_nil]⟩
  constructor
  · induction ops generalizing db with
    | nil => exact ⟨[], by rw [runOps, List.foldl_nil, List.append_nil]⟩
    | cons op t ih =>
        obtain ⟨e1, he1⟩ := hstep db op
        obtain ⟨e2, he2⟩ := ih (step ctx db op)
        refine ⟨e1 ++ e2, ?_⟩
        have hun : runOps ctx db (op :: t) = runOps ctx (step ctx db op) t := by
          rw [runOps, runOps, List.foldl_cons]
        rw [hun, he2, he1, List.append_assoc]
  · intro d op hop
    cases op with
    | opSignup body now => simp [isSignupOp] at hop
    | opLogin body now => rw [step, login_db_unchanged]
    | opMe cred now => rw [step, me_db_unchanged]
    | opDetect cred now file classify usda => rw [step]

theorem claim_C7_witness :
    step ctx0 ([user0] : DB) (Op.opLogin (α := Unit) (β := Unit) ⟨"", ""⟩ 0) = [user0] :=
  (claim_C7_users_append_only ctx0 [user0] []).2 [user0] _ rfl

/-- C2: a signup whose stripped name has fewer than 2 characters, or
whose normalized email lacks `@`, or whose password has fewer than 6
characters, fails with status 400 and creates no user record. -/
theorem claim_C2_signup_validation (ctx : CryptoCtx) (now : Nat) (db : DB)
    (body : SignupRequest)
    (h : (pyStrip body.name).length < 2 ∨
         pyInStr '@' (normalizeEmail body.email) = false ∨
         body.password.length < 6) :
    errStatus (signup ctx now db body).1 = some 400 ∧
    (signup ctx now db body).2 = db :=
  signup_rejects ctx now db body
    (by rcases h with h | h | h
        · exact Or.inl h
        · exact Or.inr (Or.inl h)
        · exact Or.inr (Or.inr (Or.inl h)))

theorem claim_C2_witness :
    errStatus (signup ctx0 0 [] ⟨"A", "a@b.com", "secret1"⟩).1 = some 400 ∧
    (signup ctx0 0 [] ⟨"A", "a@b.com", "secret1"⟩).2 = [] :=
  claim_C2_signup_validation ctx0 0 [] ⟨"A", "a@b.com", "secret1"⟩
    (Or.inl (by decide))

/-- C3: a signup whose normalized email matches the stored email of an
existing user fails with status 400 and leaves the stored user set
unchanged, so no second record with that email can arise. -/
theorem claim_C3_duplicate_email (ctx : CryptoCtx) (now : Nat) (db : DB)
    (body : SignupRequest)
    (h : ∃ u ∈ db, u.email = normalizeEmail body.email) :
    errStatus (signup ctx now db body).1 = some 400 ∧
    (signup ctx now db body).2 = db := by
  apply signup_rejects
  refine Or.inr (Or.inr (Or.inr ?_))
  obtain ⟨u, hu, hemail⟩ := h
  rw [Option.isSome_iff_exists]
  rw [show get_user_by_email db (normalizeEmail body.email)
        = get_user_by_email db body.email from get_user_by_email_norm db body.email]
  rw [get_user_by_email]
  have : (List.find? (fun v => v.email == normalizeEmail body.email) db).isSome = true :=
    List.find?_isSome.mpr ⟨u, hu, by rw [hemail]; exact beq_self_eq_true _⟩
  rw [Option.isSome_iff_exists] at this
  exact this

theorem claim_C3_witness :
    errStatus (signup ctx0 0 [user0] ⟨"Bob", " A@B.com ", "hunter2"⟩).1 = some 400 ∧
    (signup ctx0 0 [user0] ⟨"Bob", " A@B.com ", "hunter2"⟩).2 = [user0] :=
  claim_C3_duplicate_email ctx0 0 [user0] ⟨"Bob", " A@B.com ", "hunter2"⟩
    ⟨user0, by decide, by decide⟩

/-- C4, counterexample: the claim as stated quantifies over *every* login
request, but a request with an empty password (or empty email) is
rejected by the `not email or not password` check with a 400 before the
user lookup, even though no stored user matches — so the claim's
conclusion "fails with HTTP status 401" is false for that input. -/
theorem claim_C4_counterexample :
    get_user_by_email ([] : DB) (normalizeEmail "a@b.com") = none ∧
    login ctx0 0 [] ⟨"a@b.com", ""⟩
      = (.error ⟨400, "Email and password required"⟩, []) ∧
    errStatus (login ctx0 0 [] ⟨"a@b.com", ""⟩).1 ≠ some 401 := by
  refine ⟨rfl, by decide, by decide⟩

/-- C4, amended: provided the normalized email and the password are both
non-empty (otherwise login fails earlier with a 400, also issuing no
token), a login for which no stored user has the normalized email, or
whose password does not verify against the matched user's stored hash,
fails with HTTP status 401 and no token is issued. -/
theorem claim_C4_amended (ctx : CryptoCtx) (now : Nat) (db : DB) (body : LoginRequest)
    (he : normalizeEmail body.email ≠ "") (hp : body.password ≠ "")
    (h : get_user_by_email db body.email = none ∨
         ∃ u, get_user_by_email db body.email = some u ∧
              ctx.verify body.password u.password_hash = false) :
    login ctx now db body = (.error ⟨401, "Invalid email or password"⟩, db) := by
  have hcond : (normalizeEmail body.email == "" || body.password == "") = false := by
    simp only [Bool.or_eq_false_iff, beq_eq_false_iff_ne, ne_eq]
    exact ⟨he, hp⟩
  simp only [login, hcond, Bool.false_eq_true, if_false]
  rw [get_user_by_email_norm db body.email]
  rcases h with hnone | ⟨u, hu, hv⟩
  · rw [hnone]
  · simp only [hu, hv, Bool.false_eq_true, if_false]

theorem claim_C4_witness :
    login ctx0 0 [user0] ⟨"a@b.com", "wrong"⟩
      = (.error ⟨401, "Invalid email or password"⟩, [user0]) :=
  claim_C4_amended ctx0 0 [user0] ⟨"a@b.com", "wrong"⟩ (by decide) (by decide)
    (Or.inr ⟨user0, by decide, by decide⟩)

/-- C9: emails behave case- and whitespace-insensitively.  After a
successful signup, looking the user up with any string that normalizes
(strips + lowercases) to the same value finds exactly the created row;
a login with such a string and a verifying password returns that same
user; and `get_user_by_email` cannot distinguish strings with equal
normalizations at all, because both sides normalize before comparing. -/
theorem claim_C9_email_normalization (ctx : CryptoCtx) (db : DB) (body : SignupRequest)
    (now : Nat) (tr : TokenResponse) (db' : DB)
    (h : signup ctx now db body = (.ok tr, db')) :
    (∀ s, normalizeEmail s = normalizeEmail body.email →
      get_user_by_email db' s
        = some ⟨nextId db, pyStrip body.name, normalizeEmail body.email,
                ctx.hash body.password, now⟩) ∧
    (∀ (s p : String) (now2 : Nat), normalizeEmail s = normalizeEmail body.email →
      p ≠ "" → ctx.verify p (ctx.hash body.password) = true →
      login ctx now2 db' ⟨s, p⟩
        = (.ok ⟨create_access_token (nextId db) now2,
                ⟨nextId db, pyStrip body.name, normalizeEmail body.email⟩⟩, db')) ∧
    (∀ (d : DB) (e1 e2 : String), normalizeEmail e1 = normalizeEmail e2 →
      get_user_by_email d e1 = get_user_by_email d e2) := by
  obtain ⟨-, hat, -, hfree, hdb, -⟩ := signup_ok_inv ctx now db body tr db' h
  rw [get_user_by_email, normalizeEmail_idem] at hfree
  have hlookup : ∀ s, normalizeEmail s = normalizeEmail body.email →
      get_user_by_email db' s
        = some ⟨nextId db, pyStrip body.name, normalizeEmail body.email,
                ctx.hash body.password, now⟩ := by
    intro s hs
    subst hdb
    rw [get_user_by_email, List.find?_append]
    have hnone : db.find? (fun u => u.email == normalizeEmail s) = none := by
      rw [hs]
      exact hfree
    rw [hnone, Option.none_or, List.find?_cons]
    simp only [hs, beq_self_eq_true, if_pos]
  refine ⟨hlookup, ?_, ?_⟩
  · intro s p now2 hs hpne hver
    have hene : normalizeEmail body.email ≠ "" := by
      intro h0
      rw [h0] at hat
      exact absurd hat (by decide)
    have hcond : (normalizeEmail s == "" || p == "") = false := by
      simp only [Bool.or_eq_false_iff, beq_eq_false_iff_ne, ne_eq]
      exact ⟨hs ▸ hene, hpne⟩
    simp only [login, hcond, Bool.false_eq_true, if_false]
    rw [get_user_by_email_norm db' s, hlookup s hs]
    simp only [hver, if_pos]
  · intro d e1 e2 h12
    rw [get_user_by_email, get_user_by_email, h12]

theorem claim_C9_witness :
    get_user_by_email [user0] "A@B.COM"
      = some ⟨nextId [], pyStrip "Al", normalizeEmail " A@B.com ",
              ctx0.hash "secret1", 0⟩ :=
  (claim_C9_email_normalization ctx0 [] body0 0 tr0 [user0] (by decide)).1
    "A@B.COM" (by decide)

/-- C5: the signup → token → `/api/me` round trip.  A `/api/me` request
authenticated with the token a successful signup returned (before the
token's expiry) yields exactly the signed-up identity: the new row's id,
the stripped name and the normalized email. -/
theorem claim_C5_me_roundtrip (ctx : CryptoCtx) (db : DB) (body : SignupRequest)
    (now now' : Nat) (tr : TokenResponse) (db' : DB)
    (h : signup ctx now db body = (.ok tr, db'))
    (ht : now' < tr.access_token.exp) :
    me (some tr.access_token) now' db' = (.ok tr.user, db') ∧
    tr.user = ⟨nextId db, pyStrip body.name, normalizeEmail body.email⟩ := by
  obtain ⟨-, -, -, -, hdb, htr⟩ := signup_ok_inv ctx now db body tr db' h
  subst hdb
  subst htr
  simp only [create_access_token] at ht ⊢
  have hdec : decode_token ⟨pyStr (nextId db), now + ACCESS_TOKEN_EXPIRE_MINUTES * 60,
      SECRET_KEY⟩ now' = some ⟨pyStr (nextId db), now + ACCESS_TOKEN_EXPIRE_MINUTES * 60⟩ := by
    rw [decode_token]
    simp only [beq_self_eq_true, Bool.true_and, decide_eq_true_eq]
    rw [if_pos ht]
  have hsub : (pyStr (nextId db) == "") = false :=
    beq_eq_false_iff_ne.mpr (pyStr_ne_empty (nextId db))
  have hfind : get_user_by_id
      (db ++ [⟨nextId db, pyStrip body.name, normalizeEmail body.email,
               ctx.hash body.password, now⟩]) (nextId db)
      = some ⟨nextId db, pyStrip body.name, normalizeEmail body.email,
              ctx.hash body.password, now⟩ := by
    rw [get_user_by_id, List.find?_append]
    have h1 : db.find? (fun u => u.id == nextId db) = none := by
      rw [List.find?_eq_none]
      intro x hx
      simp only [beq_iff_eq]
      exact Nat.ne_of_lt (mem_id_lt_nextId db x hx)
    rw [h1, Option.none_or, List.find?_cons]
    simp only [beq_self_eq_true, if_pos]
  have hgcu : get_current_user
      (some ⟨pyStr (nextId db), now + ACCESS_TOKEN_EXPIRE_MINUTES * 60, SECRET_KEY⟩)
      (db ++ [⟨nextId db, pyStrip body.name, normalizeEmail body.email,
               ctx.hash body.password, now⟩]) now'
      = .ok ⟨nextId db, pyStrip body.name, normalizeEmail body.email,
             ctx.hash body.password, now⟩ := by
    simp only [get_current_user, hdec, hsub, Bool.false_eq_true, if_false,
      pyInt_pyStr, hfind]
  constructor
  · simp only [me, hgcu]
  · trivial

theorem claim_C5_witness :
    me (some tok0) 5 [user0] = (.ok ⟨1, "Al", "a@b.com"⟩, [user0]) ∧
    (⟨1, "Al", "a@b.com"⟩ : UserResponse)
      = ⟨nextId [], pyStrip "Al", normalizeEmail " A@B.com "⟩ :=
  claim_C5_me_roundtrip ctx0 [] body0 0 5 tr0 [user0] (by decide) (by decide)

end FruitScanner
